import Mathlib

/-!
Verification of the Metrum time conversion core (`src/time.rs` of
`metrum-cli`).  The Rust code is shallowly embedded: machine integers are
modelled as `Nat`/`Int` (the algorithms never rely on wrap-around except
where noted), Rust `Result` becomes `Except`, and a Rust panic
(arithmetic underflow on `u16`) is modelled as `Option.none`.
Rust's truncating `/` and `%` on `i64` are `Int.tdiv` / `Int.tmod`.
-/

/-- Error enumeration, mirroring `enum TimeError` in `time.rs`. -/
inductive TimeError where
  | InvalidDay
  | InvalidMinute
  | InvalidTick
  | InvalidSubtick
  | InvalidUtcMonth
  | InvalidUtcDay
  | InvalidUtcHour
  | InvalidUtcMinute
  | InvalidUtcSecond
  | InvalidUtcNano
deriving DecidableEq

def SUBTICKS_PER_TICK : Nat := 1000000

def TICKS_PER_MINUTE : Nat := 100

def MINUTES_PER_DAY : Nat := 1000

def TICKS_PER_DAY : Nat := MINUTES_PER_DAY * TICKS_PER_MINUTE

def DAYS_PER_COMMON_YEAR : Nat := 365

def DAYS_PER_LEAP_YEAR : Nat := 366

def MICROS_PER_TICK : Nat := 864000

/-- Rust `fn is_leap_year(year: i32) -> bool`.  Rust `%` on `i32` is truncating
remainder, i.e. `Int.tmod`. -/
def is_leap_year (year : Int) : Bool :=
  if year.tmod 4 = 0 then
    if year.tmod 100 = 0 then
      decide (year.tmod 400 = 0)
    else
      true
  else
    false

/-- The months, mirroring `chrono::Month`. -/
inductive Month where
  | January
  | February
  | March
  | April
  | May
  | June
  | July
  | August
  | September
  | October
  | November
  | December
deriving DecidableEq

/-- Rust `chrono::Month::number_from_month`, 1-indexed (January = 1). -/
def Month.number_from_month : Month → Nat
  | .January => 1
  | .February => 2
  | .March => 3
  | .April => 4
  | .May => 5
  | .June => 6
  | .July => 7
  | .August => 8
  | .September => 9
  | .October => 10
  | .November => 11
  | .December => 12

/-- Rust `chrono::Month::from_u32` (via `FromPrimitive`): 1-indexed, `none`
outside `1..=12`. -/
def Month.from_u32 (n : Nat) : Option Month :=
  match n with
  | 1 => some .January
  | 2 => some .February
  | 3 => some .March
  | 4 => some .April
  | 5 => some .May
  | 6 => some .June
  | 7 => some .July
  | 8 => some .August
  | 9 => some .September
  | 10 => some .October
  | 11 => some .November
  | 12 => some .December
  | _ => none

/-- Rust `fn days_in_month(month: chrono::Month, year: i32) -> u8`. -/
def days_in_month (month : Month) (year : Int) : Nat :=
  match month with
  | .January | .March | .May | .July | .August | .October | .December => 31
  | .April | .June | .September | .November => 30
  | .February => if is_leap_year year then 29 else 28

/-- Rust `days_in_month` addressed by month number, as used in the loop body of
`year_day` (`Month::from_u32(previous_month).unwrap()`).  The `.getD 0`
default models the `unwrap` branch, which is unreachable for the indices
`1..=11` produced by that loop. -/
def days_in_month_num (m : Nat) (year : Int) : Nat :=
  ((Month.from_u32 m).map fun mo => days_in_month mo year).getD 0

/-- Rust `fn year_day(year: i32, month: chrono::Month, day: u8) -> u16`.
The source computes `day as u16 - 1` and then adds the day counts of the
months strictly before `month`.  The `u16` subtraction underflows (panics
in a debug build) when `day = 0`; that failure is modelled as `none`. -/
def year_day (year : Int) (month : Month) (day : Nat) : Option Nat :=
  if day = 0 then
    none
  else
    some ((List.range (month.number_from_month - 1)).foldl
      (fun acc i => acc + days_in_month_num (i + 1) year) (day - 1))

/-- Rust `struct MetrumDate { year: i32, day: u16 }`. -/
structure MetrumDate where
  year : Int
  day : Nat
deriving DecidableEq

/-- Abbreviates the inline expression
`if is_leap_year(year) {DAYS_PER_LEAP_YEAR} else {DAYS_PER_COMMON_YEAR}`
that `time.rs` repeats at each use site. -/
def days_in_year (year : Int) : Nat :=
  if is_leap_year year then DAYS_PER_LEAP_YEAR else DAYS_PER_COMMON_YEAR

/-- Rust `MetrumDate::new`. -/
def MetrumDate.new (year : Int) (day : Nat) : Except TimeError MetrumDate :=
  if day ≥ days_in_year year then
    .error .InvalidDay
  else
    .ok { year, day }

/-- Rust `MetrumDate::from_utc`.  The outer `Option` models the two panicking
paths: the `Month::from_u32(..).unwrap()` (unreachable after the range
check) and the `u16` underflow inside `year_day` when `day = 0`. -/
def MetrumDate.from_utc (year : Int) (month : Nat) (day : Nat) :
    Option (Except TimeError MetrumDate) :=
  if month = 0 ∨ month > 12 then
    some (.error .InvalidUtcMonth)
  else
    match Month.from_u32 month with
    | none => none
    | some chrono_month =>
      if day > days_in_month chrono_month year then
        some (.error .InvalidUtcDay)
      else
        (year_day year chrono_month day).map fun d => .ok { year := year, day := d }

/-- Rust `struct MetrumTime { minute: u16, tick: u8, subtick: u32 }`. -/
structure MetrumTime where
  minute : Nat
  tick : Nat
  subtick : Nat
deriving DecidableEq

/-- Rust `MetrumTime::new`. -/
def MetrumTime.new (minute : Nat) (tick : Nat) (subtick : Nat) :
    Except TimeError MetrumTime :=
  if minute > MINUTES_PER_DAY then
    .error .InvalidMinute
  else if tick > TICKS_PER_MINUTE then
    .error .InvalidTick
  else if subtick > SUBTICKS_PER_TICK then
    .error .InvalidSubtick
  else
    .ok { minute, tick, subtick }

/-- Rust `MetrumTime::from_utc`.  All intermediate values fit their Rust types
(`day_micros < 2^37 < 2^64`, `day_ticks < 10^5 < 2^32`), so plain `Nat`
arithmetic is an exact model. -/
def MetrumTime.from_utc (hour : Nat) (minute : Nat) (second : Nat) (nano : Nat) :
    Except TimeError MetrumTime :=
  if hour > 23 then
    .error .InvalidUtcHour
  else if minute > 59 then
    .error .InvalidUtcMinute
  else if second > 59 then
    .error .InvalidUtcSecond
  else if nano > 999999999 then
    .error .InvalidUtcNano
  else
    let day_micros := (hour * 3600 + minute * 60 + second) * 1000000 + nano / 1000
    let day_ticks := day_micros / MICROS_PER_TICK
    let subtick := day_micros % MICROS_PER_TICK
    .ok { minute := day_ticks / TICKS_PER_MINUTE
          tick := day_ticks % TICKS_PER_MINUTE
          subtick }

/-- Rust `struct MetrumDateTime { date: MetrumDate, time: MetrumTime }`. -/
structure MetrumDateTime where
  date : MetrumDate
  time : MetrumTime
deriving DecidableEq

/-- The `next_year_ticks` expression recomputed at each pass of the
`from_timestamp` loop:
`if is_leap_year(year + if rem < 0 {-1} else {0}) {366 * TICKS_PER_DAY} else {365 * TICKS_PER_DAY}`. -/
def next_year_ticks (year : Int) (rem : Int) : Int :=
  if is_leap_year (year + if rem < 0 then -1 else 0) then
    366 * 100000
  else
    365 * 100000

/-- The year-reduction `while` loop of `MetrumDateTime::from_timestamp`:
runs while `rem.abs() >= next_year_ticks` (both sides are compared through
`natAbs`; `next_year_ticks` is positive, so this matches the `i64`
comparison) and returns the final `(year, remaining)` pair. -/
def ftLoop (year : Int) (rem : Int) : Int × Int :=
  if (next_year_ticks year rem).natAbs ≤ rem.natAbs then
    if rem < 0 then
      ftLoop (year - 1) (rem + next_year_ticks year rem)
    else
      ftLoop (year + 1) (rem - next_year_ticks year rem)
  else
    (year, rem)
termination_by rem.natAbs
decreasing_by
  · have h365 : next_year_ticks year rem = 366 * 100000 ∨
        next_year_ticks year rem = 365 * 100000 := by
      unfold next_year_ticks; split <;> simp
    omega
  · have h365 : next_year_ticks year rem = 366 * 100000 ∨
        next_year_ticks year rem = 365 * 100000 := by
      unfold next_year_ticks; split <;> simp
    omega

/-- Rust `MetrumDateTime::from_timestamp`.  After the loop, the two branches
decompose the remaining tick count into day / minute / tick; the negative
branch uses Rust's truncating `i64` division and remainder (`Int.tdiv`,
`Int.tmod`).  All values cast to `u16`/`u32` in the source are proved
in-range below, so `Int.toNat` models the casts exactly. -/
def MetrumDateTime.from_timestamp (timestamp : Int) : MetrumDateTime :=
  let p := ftLoop 2000 timestamp
  let year := p.1
  let rem := p.2
  if 0 ≤ rem then
    let day := rem.toNat / TICKS_PER_DAY
    let day_ticks := rem.toNat % TICKS_PER_DAY
    { date := { year := year, day := day }
      time := { minute := day_ticks / TICKS_PER_MINUTE
                tick := day_ticks % TICKS_PER_MINUTE
                subtick := 0 } }
  else
    let year := year - 1
    let day_count : Int := if is_leap_year year then 366 else 365
    let day1 : Int := rem.tdiv TICKS_PER_DAY + day_count
    let day_ticks1 : Int := rem.tmod TICKS_PER_DAY + TICKS_PER_DAY
    let day : Nat := if day_ticks1 ≠ TICKS_PER_DAY then (day1 - 1).toNat else day1.toNat
    let day_ticks : Nat := if day_ticks1 ≠ TICKS_PER_DAY then day_ticks1.toNat else 0
    { date := { year := year, day := day }
      time := { minute := day_ticks / TICKS_PER_MINUTE
                tick := day_ticks % TICKS_PER_MINUTE
                subtick := 0 } }

/-- The two accumulation loops of `MetrumDateTime::timestamp`, factored
out over the year offset: for `offset_year >= 0` the ascending loop adds
`days_in_year(current_year + 2000) * 100_000` for `current_year` in
`0..offset_year`; otherwise the loop subtracts the same amounts for
`current_year` in `offset_year..0`. -/
def yearStartTicks (year : Int) : Int :=
  let offset_year := year - 2000
  if 0 ≤ offset_year then
    (List.range offset_year.toNat).foldl
      (fun acc (i : Nat) => acc + (days_in_year ((i : Int) + 2000) : Int) * 100000) 0
  else
    (List.range (-offset_year).toNat).foldl
      (fun acc (i : Nat) => acc - (days_in_year (offset_year + (i : Int) + 2000) : Int) * 100000) 0

/-- Rust `MetrumDateTime::timestamp`. -/
def MetrumDateTime.timestamp (dt : MetrumDateTime) : Int :=
  yearStartTicks dt.date.year
    + (dt.date.day : Int) * 100000 + (dt.time.minute : Int) * 100 + (dt.time.tick : Int)

/-- Fuel-indexed variant of the `from_timestamp` year-reduction loop,
used to state termination explicitly: `none` means the fuel ran out
before the loop guard failed. -/
def ftLoopFuel : Nat → Int → Int → Option (Int × Int)
  | 0, _, _ => none
  | fuel + 1, year, rem =>
    if (next_year_ticks year rem).natAbs ≤ rem.natAbs then
      if rem < 0 then
        ftLoopFuel fuel (year - 1) (rem + next_year_ticks year rem)
      else
        ftLoopFuel fuel (year + 1) (rem - next_year_ticks year rem)
    else
      some (year, rem)

/-! ### Arithmetic helpers -/

theorem tmod_neg_left (a b : Int) : (-a).tmod b = -(a.tmod b) := by
  have h1 := Int.tmod_add_tdiv (-a) b
  have h2 := Int.tmod_add_tdiv a b
  rw [Int.neg_tdiv, mul_neg] at h1
  linarith

theorem tdiv_neg_ofNat (u n : Nat) : (-(u : Int)).tdiv n = -((u / n : Nat) : Int) := by
  rw [Int.neg_tdiv, ← Int.ofNat_tdiv]

theorem tmod_neg_ofNat (u n : Nat) : (-(u : Int)).tmod n = -((u % n : Nat) : Int) := by
  rw [tmod_neg_left, ← Int.ofNat_tmod]

theorem foldl_add_range {M : Type} [AddCommMonoid M] (f : Nat → M) (c : M) (n : Nat) :
    (List.range n).foldl (fun acc i => acc + f i) c = c + ∑ i ∈ Finset.range n, f i := by
  induction n with
  | zero => simp
  | succ n ih =>
    rw [List.range_succ, List.foldl_append, ih, Finset.sum_range_succ]
    simp [add_assoc]

theorem foldl_sub_range (f : Nat → Int) (c : Int) (n : Nat) :
    (List.range n).foldl (fun acc i => acc - f i) c = c - ∑ i ∈ Finset.range n, f i := by
  induction n with
  | zero => simp
  | succ n ih =>
    rw [List.range_succ, List.foldl_append, ih, Finset.sum_range_succ]
    simp
    ring

/-! ### Properties of `next_year_ticks` and `yearStartTicks` -/

theorem next_year_ticks_eq (year rem : Int) :
    next_year_ticks year rem
      = (days_in_year (year + if rem < 0 then -1 else 0) : Int) * 100000 := by
  simp only [next_year_ticks, days_in_year, DAYS_PER_LEAP_YEAR, DAYS_PER_COMMON_YEAR]
  split <;> norm_num

theorem next_year_ticks_of_neg {year rem : Int} (h : rem < 0) :
    next_year_ticks year rem = (days_in_year (year - 1) : Int) * 100000 := by
  rw [next_year_ticks_eq, if_pos h]
  have harg : year + -1 = year - 1 := by ring
  rw [harg]

theorem next_year_ticks_of_nonneg {year rem : Int} (h : 0 ≤ rem) :
    next_year_ticks year rem = (days_in_year year : Int) * 100000 := by
  rw [next_year_ticks_eq, if_neg (by omega)]
  norm_num

theorem next_year_ticks_lb (year rem : Int) : 365 * 100000 ≤ next_year_ticks year rem := by
  unfold next_year_ticks
  split <;> split <;> norm_num

theorem days_in_year_lb (year : Int) : 365 ≤ days_in_year year := by
  unfold days_in_year DAYS_PER_LEAP_YEAR DAYS_PER_COMMON_YEAR
  split <;> norm_num

theorem days_in_year_ub (year : Int) : days_in_year year ≤ 366 := by
  unfold days_in_year DAYS_PER_LEAP_YEAR DAYS_PER_COMMON_YEAR
  split <;> norm_num

theorem yearStartTicks_2000 : yearStartTicks 2000 = 0 := by
  norm_num [yearStartTicks]

theorem yearStartTicks_nonneg_eq (y : Int) (h : 2000 ≤ y) :
    yearStartTicks y
      = ∑ i ∈ Finset.range (y - 2000).toNat, (days_in_year ((i : Int) + 2000) : Int) * 100000 := by
  unfold yearStartTicks
  rw [if_pos (by omega), foldl_add_range, zero_add]

theorem yearStartTicks_neg_eq (y : Int) (h : y < 2000) :
    yearStartTicks y
      = -∑ i ∈ Finset.range (2000 - y).toNat,
          (days_in_year (y - 2000 + (i : Int) + 2000) : Int) * 100000 := by
  unfold yearStartTicks
  rw [if_neg (by omega), foldl_sub_range, zero_sub]
  have hn : (-(y - 2000)).toNat = (2000 - y).toNat := by omega
  rw [hn]

theorem yearStartTicks_succ (y : Int) :
    yearStartTicks (y + 1) = yearStartTicks y + (days_in_year y : Int) * 100000 := by
  rcases lt_trichotomy y 1999 with hy | hy | hy
  · rw [yearStartTicks_neg_eq y (by omega), yearStartTicks_neg_eq (y + 1) (by omega)]
    have hn : (2000 - y).toNat = (2000 - (y + 1)).toNat + 1 := by omega
    rw [hn, Finset.sum_range_succ']
    have h0 : y - 2000 + ((0 : Nat) : Int) + 2000 = y := by norm_num
    rw [h0]
    have hterm : ∀ i ∈ Finset.range (2000 - (y + 1)).toNat,
        (days_in_year (y - 2000 + ((i + 1 : Nat) : Int) + 2000) : Int) * 100000
          = (days_in_year (y + 1 - 2000 + (i : Int) + 2000) : Int) * 100000 := by
      intro i _
      have harg : y - 2000 + ((i + 1 : Nat) : Int) + 2000 = y + 1 - 2000 + (i : Int) + 2000 := by
        push_cast
        ring
      rw [harg]
    rw [Finset.sum_congr rfl hterm]
    ring
  · subst hy
    rw [yearStartTicks_neg_eq 1999 (by omega)]
    norm_num [yearStartTicks_2000]
  · rw [yearStartTicks_nonneg_eq y (by omega), yearStartTicks_nonneg_eq (y + 1) (by omega)]
    have hn : (y + 1 - 2000).toNat = (y - 2000).toNat + 1 := by omega
    rw [hn, Finset.sum_range_succ]
    have harg : (((y - 2000).toNat : Nat) : Int) + 2000 = y := by omega
    rw [harg]

theorem yearStartTicks_add_nat (a : Int) (n : Nat) :
    yearStartTicks a ≤ yearStartTicks (a + (n : Int)) := by
  induction n with
  | zero => simp
  | succ n ih =>
    have hs := yearStartTicks_succ (a + (n : Int))
    have hd : (0 : Int) ≤ (days_in_year (a + (n : Int)) : Int) * 100000 := by positivity
    have harg : a + ((n + 1 : Nat) : Int) = a + (n : Int) + 1 := by push_cast; ring
    rw [harg]
    omega

theorem yearStartTicks_mono {a b : Int} (h : a ≤ b) :
    yearStartTicks a ≤ yearStartTicks b := by
  have hb : b = a + ((b - a).toNat : Int) := by omega
  rw [hb]
  exact yearStartTicks_add_nat a (b - a).toNat

theorem year_within_unique {Y1 Y2 w1 w2 : Int}
    (h1 : 0 ≤ w1) (h1' : w1 < (days_in_year Y1 : Int) * 100000)
    (h2 : 0 ≤ w2) (h2' : w2 < (days_in_year Y2 : Int) * 100000)
    (heq : yearStartTicks Y1 + w1 = yearStartTicks Y2 + w2) : Y1 = Y2 ∧ w1 = w2 := by
  rcases lt_trichotomy Y1 Y2 with hlt | he | hgt
  · exfalso
    have hm : yearStartTicks (Y1 + 1) ≤ yearStartTicks Y2 := yearStartTicks_mono (by omega)
    have hs := yearStartTicks_succ Y1
    omega
  · subst he
    omega
  · exfalso
    have hm : yearStartTicks (Y2 + 1) ≤ yearStartTicks Y1 := yearStartTicks_mono (by omega)
    have hs := yearStartTicks_succ Y2
    omega

theorem ftLoop_invariant (year rem : Int) :
    yearStartTicks (ftLoop year rem).1 + (ftLoop year rem).2 = yearStartTicks year + rem := by
  induction year, rem using ftLoop.induct with
  | case1 year rem hcond hneg ih =>
    rw [ftLoop, if_pos hcond, if_pos hneg]
    rw [ih]
    have hnyt := @next_year_ticks_of_neg year rem hneg
    have hs := yearStartTicks_succ (year - 1)
    have hy : year - 1 + 1 = year := by ring
    rw [hy] at hs
    omega
  | case2 year rem hcond hneg ih =>
    rw [ftLoop, if_pos hcond, if_neg hneg]
    rw [ih]
    have hnyt := @next_year_ticks_of_nonneg year rem (by omega)
    have hs := yearStartTicks_succ year
    omega
  | case3 year rem hcond =>
    rw [ftLoop, if_neg hcond]

theorem ftLoop_exit (year rem : Int) :
    ((ftLoop year rem).2).natAbs
      < (next_year_ticks (ftLoop year rem).1 (ftLoop year rem).2).natAbs := by
  induction year, rem using ftLoop.induct with
  | case1 year rem hcond hneg ih =>
    rw [ftLoop, if_pos hcond, if_pos hneg]
    exact ih
  | case2 year rem hcond hneg ih =>
    rw [ftLoop, if_pos hcond, if_neg hneg]
    exact ih
  | case3 year rem hcond =>
    rw [ftLoop, if_neg hcond]
    show rem.natAbs < (next_year_ticks year rem).natAbs
    omega

theorem day_count_eq (y : Int) :
    (if is_leap_year y then (366 : Int) else 365) = (days_in_year y : Int) := by
  unfold days_in_year DAYS_PER_LEAP_YEAR DAYS_PER_COMMON_YEAR
  split <;> norm_num

theorem from_timestamp_eq (t Y : Int) (w : Nat)
    (hw : w < days_in_year Y * 100000)
    (ht : t = yearStartTicks Y + (w : Int)) :
    MetrumDateTime.from_timestamp t =
      ⟨⟨Y, w / 100000⟩, ⟨w % 100000 / 100, w % 100000 % 100, 0⟩⟩ := by
  have hinv := ftLoop_invariant 2000 t
  have hexit := ftLoop_exit 2000 t
  rcases hp : ftLoop 2000 t with ⟨y1, r1⟩
  rw [hp] at hinv hexit
  dsimp only at hinv hexit
  rw [yearStartTicks_2000] at hinv
  have hwq : (w : Int) < (days_in_year Y : Int) * 100000 := by exact_mod_cast hw
  simp only [MetrumDateTime.from_timestamp, hp]
  by_cases hr : 0 ≤ r1
  · rw [next_year_ticks_of_nonneg hr] at hexit
    have hub : (0 : Int) ≤ (days_in_year y1 : Int) * 100000 :=
      mul_nonneg (Int.ofNat_nonneg _) (by norm_num)
    have hr2 : r1 < (days_in_year y1 : Int) * 100000 := by omega
    have heq : yearStartTicks Y + (w : Int) = yearStartTicks y1 + r1 := by omega
    obtain ⟨hY, hww⟩ :=
      year_within_unique (Int.ofNat_nonneg w) hwq hr hr2 heq
    subst hY
    rw [if_pos hr]
    have hwr : r1.toNat = w := by omega
    simp only [TICKS_PER_DAY, MINUTES_PER_DAY, TICKS_PER_MINUTE, hwr]
  · push_neg at hr
    rw [next_year_ticks_of_neg hr] at hexit
    have hub : (0 : Int) ≤ (days_in_year (y1 - 1) : Int) * 100000 :=
      mul_nonneg (Int.ofNat_nonneg _) (by norm_num)
    have hlow : -((days_in_year (y1 - 1) : Int) * 100000) < r1 := by omega
    have hs := yearStartTicks_succ (y1 - 1)
    rw [show y1 - 1 + 1 = y1 by ring] at hs
    have heq : yearStartTicks Y + (w : Int)
        = yearStartTicks (y1 - 1) + (r1 + (days_in_year (y1 - 1) : Int) * 100000) := by
      omega
    obtain ⟨hY, hww⟩ :=
      year_within_unique (Int.ofNat_nonneg w) hwq (by omega) (by omega) heq
    subst hY
    rw [if_neg (by omega)]
    obtain ⟨u, hu⟩ : ∃ u : Nat, r1 = -(u : Int) := ⟨r1.natAbs, by omega⟩
    have hu0 : 0 < u := by omega
    have huD : (u : Int) < (days_in_year (y1 - 1) : Int) * 100000 := by omega
    rw [hu] at hww ⊢
    rw [day_count_eq, tdiv_neg_ofNat, tmod_neg_ofNat]
    simp only [TICKS_PER_DAY, MINUTES_PER_DAY, TICKS_PER_MINUTE]
    by_cases hz : u % 100000 = 0
    · rw [if_neg (by omega), if_neg (by omega)]
      simp only [MetrumDateTime.mk.injEq, MetrumDate.mk.injEq, MetrumTime.mk.injEq]
      refine ⟨⟨trivial, by omega⟩, by omega, by omega, trivial⟩
    · rw [if_pos (by omega), if_pos (by omega)]
      simp only [MetrumDateTime.mk.injEq, MetrumDate.mk.injEq, MetrumTime.mk.injEq]
      refine ⟨⟨trivial, by omega⟩, by omega, by omega, trivial⟩

theorem from_timestamp_spec (t : Int) :
    ∃ (Y : Int) (w : Nat), w < days_in_year Y * 100000 ∧ t = yearStartTicks Y + (w : Int) := by
  have hinv := ftLoop_invariant 2000 t
  have hexit := ftLoop_exit 2000 t
  rcases hp : ftLoop 2000 t with ⟨y1, r1⟩
  rw [hp] at hinv hexit
  dsimp only at hinv hexit
  rw [yearStartTicks_2000] at hinv
  by_cases hr : 0 ≤ r1
  · refine ⟨y1, r1.toNat, ?_, ?_⟩
    · rw [next_year_ticks_of_nonneg hr] at hexit
      have hd := days_in_year_lb y1
      omega
    · omega
  · push_neg at hr
    rw [next_year_ticks_of_neg hr] at hexit
    have hs := yearStartTicks_succ (y1 - 1)
    rw [show y1 - 1 + 1 = y1 by ring] at hs
    have hd := days_in_year_lb (y1 - 1)
    refine ⟨y1 - 1, (r1 + (days_in_year (y1 - 1) : Int) * 100000).toNat, ?_, ?_⟩
    · omega
    · omega

theorem ftLoopFuel_eq (fuel : Nat) : ∀ (y r : Int), r.natAbs < fuel * (365 * 100000) →
    ftLoopFuel fuel y r = some (ftLoop y r) := by
  induction fuel with
  | zero =>
    intro y r h
    omega
  | succ fuel ih =>
    intro y r h
    rw [ftLoopFuel, ftLoop]
    by_cases hc : (next_year_ticks y r).natAbs ≤ r.natAbs
    · rw [if_pos hc, if_pos hc]
      have hlb := next_year_ticks_lb y r
      by_cases hneg : r < 0
      · rw [if_pos hneg, if_pos hneg]
        exact ih _ _ (by omega)
      · rw [if_neg hneg, if_neg hneg]
        exact ih _ _ (by omega)
    · rw [if_neg hc, if_neg hc]

theorem sum_range_eq_Ico (a : Int) (n : Nat) (f : Int → Int) :
    ∑ z ∈ Finset.Ico a (a + (n : Int)), f z = ∑ i ∈ Finset.range n, f (a + (i : Int)) := by
  induction n with
  | zero => simp
  | succ n ih =>
    have hins : Finset.Ico a (a + ((n + 1 : Nat) : Int))
        = insert (a + (n : Int)) (Finset.Ico a (a + (n : Int))) := by
      ext z
      simp only [Finset.mem_Ico, Finset.mem_insert]
      push_cast
      omega
    rw [hins, Finset.sum_insert (by simp [Finset.mem_Ico]), ih, Finset.sum_range_succ]
    ring

/-- C1.  Timestamp round-trip: for every `MetrumDateTime` whose fields
satisfy `day < days_in_year year`, `minute <= 999`, `tick <= 99` and
`subtick = 0`, `from_timestamp (timestamp dt) = dt` — including pre-epoch
values (negative timestamps) and year/century/epoch boundaries, since
`Y` ranges over all integers. -/
theorem timestamp_roundtrip (Y : Int) (d m k : Nat)
    (hd : d < days_in_year Y) (hm : m ≤ 999) (hk : k ≤ 99) :
    MetrumDateTime.from_timestamp (MetrumDateTime.timestamp ⟨⟨Y, d⟩, ⟨m, k, 0⟩⟩)
      = ⟨⟨Y, d⟩, ⟨m, k, 0⟩⟩ := by
  have hts : MetrumDateTime.timestamp ⟨⟨Y, d⟩, ⟨m, k, 0⟩⟩
      = yearStartTicks Y + ((d * 100000 + m * 100 + k : Nat) : Int) := by
    simp only [MetrumDateTime.timestamp]
    push_cast
    ring
  rw [hts, from_timestamp_eq _ Y (d * 100000 + m * 100 + k) (by omega) rfl]
  simp only [MetrumDateTime.mk.injEq, MetrumDate.mk.injEq, MetrumTime.mk.injEq]
  refine ⟨⟨trivial, by omega⟩, by omega, by omega, trivial⟩

/-- Witness for `timestamp_roundtrip`: the "moon landing" date-time
1969-07-20 20:17:40 UTC, i.e. Metrum 1969'200 845:60 (subtick zeroed),
round-trips through its (negative) timestamp. -/
theorem timestamp_roundtrip_witness :
    MetrumDateTime.from_timestamp
        (MetrumDateTime.timestamp ⟨⟨1969, 200⟩, ⟨845, 60, 0⟩⟩)
      = ⟨⟨1969, 200⟩, ⟨845, 60, 0⟩⟩ :=
  timestamp_roundtrip 1969 200 845 60 (by decide) (by decide) (by decide)

/-- C3.  Epoch anchor exactness: `timestamp` of (year 2000, day 0,
minute 0, tick 0, subtick 0) is exactly 0, and `from_timestamp 0` returns
exactly that anchor. -/
theorem epoch_anchor :
    MetrumDateTime.timestamp ⟨⟨2000, 0⟩, ⟨0, 0, 0⟩⟩ = 0
      ∧ MetrumDateTime.from_timestamp 0 = ⟨⟨2000, 0⟩, ⟨0, 0, 0⟩⟩ := by
  constructor
  · simp [MetrumDateTime.timestamp, yearStartTicks_2000]
  · have hlb := days_in_year_lb 2000
    have h := from_timestamp_eq 0 2000 0 (by omega) (by rw [yearStartTicks_2000]; simp)
    simpa using h

/-- C5.  `from_timestamp` output invariant: for every integer input,
the result (whose fields are built directly, bypassing the validating
constructors) satisfies `day < days_in_year year`, `minute <= 999`,
`tick <= 99`, `subtick = 0`. -/
theorem from_timestamp_invariant (t : Int) :
    (MetrumDateTime.from_timestamp t).date.day
        < days_in_year (MetrumDateTime.from_timestamp t).date.year
      ∧ (MetrumDateTime.from_timestamp t).time.minute ≤ 999
      ∧ (MetrumDateTime.from_timestamp t).time.tick ≤ 99
      ∧ (MetrumDateTime.from_timestamp t).time.subtick = 0 := by
  obtain ⟨Y, w, hw, ht⟩ := from_timestamp_spec t
  rw [ht, from_timestamp_eq _ Y w hw rfl]
  dsimp only
  refine ⟨by omega, by omega, by omega, rfl⟩

/-- C10.  Termination of the `from_timestamp` year-reduction loop:
every pass of the loop removes `next_year_ticks >= 365 * 100_000` from
`|remaining|`, so for every timestamp `t` the fuel-indexed rendering of the
loop reaches the exit within `|t| / (365 * 100_000) + 1` iterations and
agrees with the total function `ftLoop`; `from_timestamp` is total. -/
theorem from_timestamp_terminates :
    (∀ y r : Int, 365 * 100000 ≤ next_year_ticks y r)
      ∧ ∀ t : Int, ftLoopFuel (t.natAbs / (365 * 100000) + 1) 2000 t
          = some (ftLoop 2000 t) := by
  refine ⟨next_year_ticks_lb, fun t => ftLoopFuel_eq _ 2000 t (by omega)⟩

theorem yearStartTicks_Ico (y : Int) :
    yearStartTicks y
      = if 2000 ≤ y
          then ∑ z ∈ Finset.Ico (2000 : Int) y, (days_in_year z : Int) * 100000
          else -∑ z ∈ Finset.Ico y (2000 : Int), (days_in_year z : Int) * 100000 := by
  by_cases h : 2000 ≤ y
  · rw [if_pos h, yearStartTicks_nonneg_eq y h]
    have heq := sum_range_eq_Ico 2000 (y - 2000).toNat fun z => (days_in_year z : Int) * 100000
    rw [show (2000 : Int) + (((y - 2000).toNat : Nat) : Int) = y by omega] at heq
    refine Eq.trans (Finset.sum_congr rfl fun i _ => ?_) heq.symm
    dsimp only
    rw [add_comm ((i : Nat) : Int) 2000]
  · push_neg at h
    rw [if_neg (by omega), yearStartTicks_neg_eq y h]
    have heq := sum_range_eq_Ico y (2000 - y).toNat fun z => (days_in_year z : Int) * 100000
    rw [show y + (((2000 - y).toNat : Nat) : Int) = 2000 by omega] at heq
    refine neg_inj.mpr (Eq.trans (Finset.sum_congr rfl fun i _ => ?_) heq.symm)
    dsimp only
    rw [show y - 2000 + ((i : Nat) : Int) + 2000 = y + ((i : Nat) : Int) by ring]

/-- C2.  Forward timestamp formula: `timestamp dt` is the signed sum of
`days_in_year y * 100_000` over the years between 2000 and `dt.year`
(added when `dt.year >= 2000`, negated when `dt.year < 2000`), plus
`day * 100_000 + minute * 100 + tick`; the subtick field has no influence
(any DateTime differing only in subtick produces the same timestamp). -/
theorem timestamp_formula (dt : MetrumDateTime) :
    dt.timestamp
      = (if 2000 ≤ dt.date.year
          then ∑ z ∈ Finset.Ico (2000 : Int) dt.date.year, (days_in_year z : Int) * 100000
          else -∑ z ∈ Finset.Ico dt.date.year (2000 : Int), (days_in_year z : Int) * 100000)
        + (dt.date.day : Int) * 100000 + (dt.time.minute : Int) * 100 + (dt.time.tick : Int)
      ∧ ∀ s : Nat,
        MetrumDateTime.timestamp ⟨dt.date, ⟨dt.time.minute, dt.time.tick, s⟩⟩ = dt.timestamp := by
  constructor
  · rw [MetrumDateTime.timestamp, yearStartTicks_Ico]
  · intro s
    rw [MetrumDateTime.timestamp, MetrumDateTime.timestamp]

theorem tmod_eq_zero_iff_dvd (a n : Int) (hn : 0 ≤ n) : a.tmod n = 0 ↔ n ∣ a := by
  rcases le_or_lt 0 a with ha | ha
  · rw [Int.tmod_eq_emod ha hn]
    exact ⟨Int.dvd_of_emod_eq_zero, Int.emod_eq_zero_of_dvd⟩
  · have hneg : a.tmod n = -((-a).tmod n) := by
      have h := tmod_neg_left (-a) n
      rw [neg_neg] at h
      omega
    rw [hneg, neg_eq_zero, Int.tmod_eq_emod (by omega) hn]
    constructor
    · intro h
      exact (Int.dvd_neg).mp (Int.dvd_of_emod_eq_zero h)
    · intro h
      exact Int.emod_eq_zero_of_dvd ((Int.dvd_neg).mpr h)

/-- C9.  Leap-year oracle correctness: `is_leap_year` matches the
Gregorian rule (divisible by 4 and (not by 100, or by 400)) on every
signed integer, `days_in_month` for February is 29 exactly in leap years,
and the known table (1900 common, 1980/2000/2020 leap, 2014 common) holds. -/
theorem is_leap_year_spec (year : Int) :
    (is_leap_year year = true ↔ ((4 : Int) ∣ year ∧ (¬(100 : Int) ∣ year ∨ (400 : Int) ∣ year)))
      ∧ days_in_month .February year = (if is_leap_year year then 29 else 28)
      ∧ days_in_month .February 1900 = 28
      ∧ days_in_month .February 1980 = 29
      ∧ days_in_month .February 2000 = 29
      ∧ days_in_month .February 2014 = 28
      ∧ days_in_month .February 2020 = 29 := by
  refine ⟨?_, rfl, by decide, by decide, by decide, by decide, by decide⟩
  rw [← tmod_eq_zero_iff_dvd year 4 (by norm_num), ← tmod_eq_zero_iff_dvd year 100 (by norm_num),
    ← tmod_eq_zero_iff_dvd year 400 (by norm_num)]
  unfold is_leap_year
  by_cases h4 : year.tmod 4 = 0 <;> by_cases h100 : year.tmod 100 = 0 <;>
    by_cases h400 : year.tmod 400 = 0 <;> simp [h4, h100, h400]

/-- C6.  `MetrumTime::new` validation bounds are inclusive:
`InvalidMinute` iff `minute > 1000`, `InvalidTick` iff `minute <= 1000`
and `tick > 100`, `InvalidSubtick` iff `minute <= 1000`, `tick <= 100`
and `subtick > 1_000_000`; otherwise the value is accepted unchanged, so
the boundary values 1000 / 100 / 1_000_000 are all valid. -/
theorem time_new_spec (minute tick subtick : Nat) :
    (MetrumTime.new minute tick subtick = .error .InvalidMinute ↔ 1000 < minute)
      ∧ (MetrumTime.new minute tick subtick = .error .InvalidTick
          ↔ minute ≤ 1000 ∧ 100 < tick)
      ∧ (MetrumTime.new minute tick subtick = .error .InvalidSubtick
          ↔ minute ≤ 1000 ∧ tick ≤ 100 ∧ 1000000 < subtick)
      ∧ (minute ≤ 1000 → tick ≤ 100 → subtick ≤ 1000000 →
          MetrumTime.new minute tick subtick = .ok ⟨minute, tick, subtick⟩) := by
  unfold MetrumTime.new MINUTES_PER_DAY TICKS_PER_MINUTE SUBTICKS_PER_TICK
  split_ifs with h1 h2 h3 <;> refine ⟨?_, ?_, ?_, ?_⟩ <;> simp <;> omega

/-- Witness for `time_new_spec`: the boundary triple (1000, 100, 1000000)
is accepted as-is. -/
theorem time_new_spec_witness :
    MetrumTime.new 1000 100 1000000 = .ok ⟨1000, 100, 1000000⟩ :=
  (time_new_spec 1000 100 1000000).2.2.2 (by norm_num) (by norm_num) (by norm_num)

/-- C7.  `MetrumDate::new` returns `InvalidDay` exactly when
`day >= days_in_year year`, and otherwise a date carrying exactly the
given year and day; so `day = days_in_year year - 1` succeeds and
`day = days_in_year year` fails. -/
theorem date_new_spec (year : Int) (day : Nat) :
    (MetrumDate.new year day = .error .InvalidDay ↔ days_in_year year ≤ day)
      ∧ (day < days_in_year year → MetrumDate.new year day = .ok ⟨year, day⟩) := by
  unfold MetrumDate.new
  split_ifs with h <;> refine ⟨?_, ?_⟩ <;> simp <;> omega

/-- Witness for `date_new_spec`: day 365 of the leap year 2000 (its last
valid day, `days_in_year 2000 - 1`) is accepted. -/
theorem date_new_spec_witness : MetrumDate.new 2000 365 = .ok ⟨2000, 365⟩ :=
  (date_new_spec 2000 365).2 (by decide)

/-- C8.  `MetrumTime::from_utc` is the proportional remap: with
`micros = (hour*3600 + minute*60 + second) * 1_000_000 + nano/1000`
(truncating), the result is
`minute = micros/864000/100`, `tick = micros/864000%100`,
`subtick = micros%864000`; out-of-range fields fail with the
corresponding UTC error. -/
theorem time_from_utc_spec (hour minute second nano : Nat) :
    (hour ≤ 23 → minute ≤ 59 → second ≤ 59 → nano ≤ 999999999 →
        MetrumTime.from_utc hour minute second nano
          = .ok { minute := ((hour * 3600 + minute * 60 + second) * 1000000 + nano / 1000) / 864000 / 100
                  tick := ((hour * 3600 + minute * 60 + second) * 1000000 + nano / 1000) / 864000 % 100
                  subtick := ((hour * 3600 + minute * 60 + second) * 1000000 + nano / 1000) % 864000 })
      ∧ (23 < hour → MetrumTime.from_utc hour minute second nano = .error .InvalidUtcHour)
      ∧ (hour ≤ 23 → 59 < minute →
          MetrumTime.from_utc hour minute second nano = .error .InvalidUtcMinute)
      ∧ (hour ≤ 23 → minute ≤ 59 → 59 < second →
          MetrumTime.from_utc hour minute second nano = .error .InvalidUtcSecond)
      ∧ (hour ≤ 23 → minute ≤ 59 → second ≤ 59 → 999999999 < nano →
          MetrumTime.from_utc hour minute second nano = .error .InvalidUtcNano) := by
  unfold MetrumTime.from_utc MICROS_PER_TICK TICKS_PER_MINUTE
  refine ⟨?_, ?_, ?_, ?_, ?_⟩ <;> intros <;> split_ifs <;> first | rfl | omega

/-- Witness for `time_from_utc_spec`: 20:17:40.000000000 UTC maps to
845:60.160000 (the moon-landing time of day). -/
theorem time_from_utc_spec_witness :
    MetrumTime.from_utc 20 17 40 0 = .ok ⟨845, 60, 160000⟩ :=
  ((time_from_utc_spec 20 17 40 0).1 (by norm_num) (by norm_num) (by norm_num)
    (by norm_num)).trans rfl

theorem from_u32_number (m : Nat) (h1 : 1 ≤ m) (h2 : m ≤ 12) :
    ∃ mo : Month, Month.from_u32 m = some mo ∧ mo.number_from_month = m := by
  interval_cases m <;> exact ⟨_, rfl, rfl⟩

/-- C4 counterexample.  `MetrumDate::from_utc(2000, 1, 0)` passes the
month check and the `day > days_in_month` check (0 exceeds nothing), so
`year_day` is reached with `day = 0` and the `u16` subtraction
`day as u16 - 1` underflows: the call is not well-defined (`none` models
the panic), contradicting the claim that the subtraction is well-defined
for every accepted input including `day_of_month = 0`. -/
theorem date_from_utc_day0_underflow : MetrumDate.from_utc 2000 1 0 = none := rfl

/-- C4 amended.  `MetrumDate::from_utc` never under/overflows and
returns the claimed ordinal for every accepted input with
`day_of_month >= 1`: month outside 1..12 gives `InvalidUtcMonth`,
`day_of_month > days_in_month` gives `InvalidUtcDay`, and for
`1 <= day_of_month <= days_in_month` the ordinal is `(day_of_month - 1)`
plus the sum of `days_in_month` over the months strictly before; but the
input `day_of_month = 0` is also accepted by the validation and then the
subtraction `day_of_month - 1` underflows `u16` (a panic, modelled as
`none`), so `from_utc` is not total on all accepted inputs. -/
theorem date_from_utc_spec (year : Int) (month day : Nat) :
    ((month = 0 ∨ 12 < month) →
        MetrumDate.from_utc year month day = some (.error .InvalidUtcMonth))
      ∧ (1 ≤ month → month ≤ 12 → days_in_month_num month year < day →
          MetrumDate.from_utc year month day = some (.error .InvalidUtcDay))
      ∧ (1 ≤ month → month ≤ 12 → day = 0 →
          MetrumDate.from_utc year month day = none)
      ∧ (1 ≤ month → month ≤ 12 → 1 ≤ day → day ≤ days_in_month_num month year →
          MetrumDate.from_utc year month day
            = some (.ok ⟨year, (day - 1)
                + ∑ i ∈ Finset.range (month - 1), days_in_month_num (i + 1) year⟩)) := by
  refine ⟨?_, ?_, ?_, ?_⟩
  · intro h
    unfold MetrumDate.from_utc
    rw [if_pos (by omega)]
  · intro h1 h2 hd
    obtain ⟨mo, hmo, hnum⟩ := from_u32_number month h1 h2
    have hdm : days_in_month mo year = days_in_month_num month year := by
      simp [days_in_month_num, hmo]
    unfold MetrumDate.from_utc
    rw [if_neg (by omega), hmo]
    dsimp only
    rw [if_pos (by omega)]
  · intro h1 h2 hday0
    obtain ⟨mo, hmo, hnum⟩ := from_u32_number month h1 h2
    unfold MetrumDate.from_utc
    rw [if_neg (by omega), hmo]
    dsimp only
    rw [if_neg (by omega)]
    unfold year_day
    rw [if_pos hday0]
    rfl
  · intro h1 h2 hd1 hd2
    obtain ⟨mo, hmo, hnum⟩ := from_u32_number month h1 h2
    have hdm : days_in_month mo year = days_in_month_num month year := by
      simp [days_in_month_num, hmo]
    unfold MetrumDate.from_utc
    rw [if_neg (by omega), hmo]
    dsimp only
    rw [if_neg (by omega)]
    unfold year_day
    rw [if_neg (by omega)]
    rw [foldl_add_range (fun i => days_in_month_num (i + 1) year) (day - 1)
      (mo.number_from_month - 1), hnum]
    rfl

/-- Witness for `date_from_utc_spec`: 2000-02-29 (leap-day of a leap
century year) is accepted with ordinal 59. -/
theorem date_from_utc_spec_witness :
    MetrumDate.from_utc 2000 2 29 = some (.ok ⟨2000, 59⟩) :=
  ((date_from_utc_spec 2000 2 29).2.2.2 (by norm_num) (by norm_num) (by norm_num)
    (by decide)).trans rfl
